import Mathlib

/-!
Verification of the moonflare build-graph dependency synchronizer and
multi-format config mutator.

The build-manifest side (moonflare-cli/src/utils/fs.rs and the crate arm of
commands/add.rs) is embedded by modelling serde_yaml values as an inductive
YAML type.  A manifest file on disk is modelled by its parsed value: the
mutators always rewrite a file as the deterministic serialization of the
value they hold, so two files are byte-identical exactly when their modelled
values are equal.  A separate flag records whether the code performed a
write at all.

The rename side (src/commands/rename.rs) is embedded with an explicit
filesystem state: a list of existing directory paths, plus per-project
deploy-manifest records.  The JSONC identity rewrite is embedded down to
the character level, mirroring the regex used by the source.
-/

set_option autoImplicit false

namespace Moonflare

/-- YAML values as produced by serde_yaml: null, booleans, numbers, strings,
sequences and mappings.  Mappings are ordered association lists, mirroring
the insertion-ordered map used by the source's YAML library. -/
inductive Yaml : Type where
  | null : Yaml
  | bool : Bool → Yaml
  | num : Int → Yaml
  | str : String → Yaml
  | seq : List Yaml → Yaml
  | map : List (Yaml × Yaml) → Yaml

/-- Mirror of Value::as_str: the string when the value is a string. -/
def Yaml.asStr : Yaml → Option String
  | .str s => some s
  | _ => none

/-- Mirror of Value::as_sequence. -/
def Yaml.asSeq : Yaml → Option (List Yaml)
  | .seq xs => some xs
  | _ => none

/-- Lookup of a string key in a YAML mapping, first matching entry.  A
non-string key never equals a string key, so comparing via asStr is exactly
the source library's Value equality on the keys that occur here. -/
def mapGet (m : List (Yaml × Yaml)) (k : String) : Option Yaml :=
  match m with
  | [] => none
  | (k', v) :: rest => if k'.asStr = some k then some v else mapGet rest k

/-- Insertion into a YAML mapping with insertion-ordered-map semantics: an
existing key keeps its position and gets the new value, a new key is
appended at the end. -/
def mapInsert (m : List (Yaml × Yaml)) (k : String) (v : Yaml) : List (Yaml × Yaml) :=
  match m with
  | [] => [(Yaml.str k, v)]
  | (k', v') :: rest =>
      if k'.asStr = some k then (Yaml.str k, v) :: rest
      else (k', v') :: mapInsert rest k v

/-- Mirror of Value::get with a string index: mapping lookup, none on any
other value. -/
def Yaml.get : Yaml → String → Option Yaml
  | .map m, k => mapGet m k
  | _, _ => none

/-- Replace the value at a string key when the receiver is a mapping;
any other value is returned unchanged.  This models mutation through
Value::get_mut followed by in-place update. -/
def Yaml.setKey : Yaml → String → Yaml → Yaml
  | .map m, k, v => .map (mapInsert m k v)
  | y, _, _ => y

/-- Sequence stored at a key of a YAML mapping, defaulting to the empty
list when the key is missing or its value is not a sequence — exactly the
read pattern get-as_sequence-cloned-unwrap_or_default of the source. -/
def seqAt (bm : List (Yaml × Yaml)) (k : String) : List Yaml :=
  ((mapGet bm k).bind Yaml.asSeq).getD []

/-- Task reference added to every consumer's build deps. -/
def wasmGather : String := "shared-wasm:gather"

/-- Artifact glob added to every consumer's build inputs. -/
def wasmInput : String := "/shared-wasm/*.wasm"

/-- First half of the tasks.build mutation in add_wasm_dependency_to_project:
append the gather reference to deps unless an entry with that string value
is already present. -/
def updDeps (bm : List (Yaml × Yaml)) : List (Yaml × Yaml) :=
  if (seqAt bm "deps").any (fun d => d.asStr = some wasmGather) then bm
  else mapInsert bm "deps" (.seq (seqAt bm "deps" ++ [.str wasmGather]))

/-- Second half of the tasks.build mutation: append the artifact glob to
inputs unless already present, reading from the mapping as left by the
deps step. -/
def updInputs (bm : List (Yaml × Yaml)) : List (Yaml × Yaml) :=
  if (seqAt bm "inputs").any (fun i => i.asStr = some wasmInput) then bm
  else mapInsert bm "inputs" (.seq (seqAt bm "inputs" ++ [.str wasmInput]))

/-- Body of add_wasm_dependency_to_project acting on the tasks.build
mapping: the deps step followed by the inputs step. -/
def updateBuildMapping (bm : List (Yaml × Yaml)) : List (Yaml × Yaml) :=
  updInputs (updDeps bm)

/-- Mirror of add_wasm_dependency_to_project on a parsed config: navigate
to tasks.build; when that is a mapping, update it in place; otherwise the
config is left untouched. -/
def addWasmToConfig (config : Yaml) : Yaml :=
  match config.get "tasks" with
  | none => config
  | some tasks =>
    match tasks.get "build" with
    | some (.map bm) =>
        config.setKey "tasks" (tasks.setKey "build" (.map (updateBuildMapping bm)))
    | _ => config

/-- Mirror of has_wasm_dependency on a parsed config: true exactly when
tasks.build.deps is a sequence holding an entry whose string value is the
gather reference. -/
def configHasWasmDep (config : Yaml) : Bool :=
  match config.get "tasks" with
  | none => false
  | some tasks =>
    match tasks.get "build" with
    | none => false
    | some bt =>
      match bt.get "deps" with
      | none => false
      | some deps =>
        match deps.asSeq with
        | none => false
        | some ds => ds.any (fun d => d.asStr = some wasmGather)

/-- Mirror of add_crate_build_dependency_to_shared_wasm on the parsed
aggregator config: navigate to tasks.gather; when that is a mapping, append
the crate's build target to its deps unless already present. -/
def addCrateToGather (crateName : String) (config : Yaml) : Yaml :=
  match config.get "tasks" with
  | none => config
  | some tasks =>
    match tasks.get "gather" with
    | some (.map gm) =>
        let deps := ((mapGet gm "deps").bind Yaml.asSeq).getD []
        let target := crateName ++ ":build"
        if deps.any (fun d => d.asStr = some target) then config
        else
          config.setKey "tasks"
            (tasks.setKey "gather"
              (.map (mapInsert gm "deps" (.seq (deps ++ [.str target])))))
    | _ => config

/-- State of one manifest file on disk: missing, unreadable, readable but
not parseable as YAML, or parsed to a value (the on-disk bytes being the
deterministic serialization of that value). -/
inductive FileState : Type where
  | absent : FileState
  | unreadable : FileState
  | malformed : FileState
  | yaml : Yaml → FileState

/-- Mirror of add_wasm_dependency_to_project at the file level.  A missing
file is success without a write; a read or parse failure is an error before
any write; a parsed file is updated and always written back.  The Bool
records whether the file was written. -/
def add_wasm_dependency_to_project (f : FileState) : Except Unit (FileState × Bool) :=
  match f with
  | .absent => .ok (.absent, false)
  | .unreadable => .error ()
  | .malformed => .error ()
  | .yaml v => .ok (.yaml (addWasmToConfig v), true)

/-- Mirror of has_wasm_dependency at the file level: every failure path of
the nested if-let chain yields false. -/
def has_wasm_dependency (f : FileState) : Bool :=
  match f with
  | .yaml v => configHasWasmDep v
  | _ => false

/-- Mirror of add_crate_build_dependency_to_shared_wasm at the file level. -/
def add_crate_build_dependency_to_shared_wasm (crateName : String) (f : FileState) :
    Except Unit (FileState × Bool) :=
  match f with
  | .absent => .ok (.absent, false)
  | .unreadable => .error ()
  | .malformed => .error ()
  | .yaml v => .ok (.yaml (addCrateToGather crateName v), true)

/-- Workspace state seen by the wiring policy: the consumer projects' build
manifests in enumeration order, and the aggregator manifest. -/
structure Workspace : Type where
  consumers : List FileState
  aggregator : FileState

/-- Mirror of the consumer loop in add_wasm_dependencies_to_existing_projects:
each manifest is repaired when has_wasm_dependency is false; an error aborts
the loop, leaving that manifest and all later ones untouched.  The Bool is
true when the whole loop succeeded. -/
def processConsumers : List FileState → List FileState × Bool
  | [] => ([], true)
  | f :: rest =>
    match has_wasm_dependency f with
    | true =>
      let r := processConsumers rest
      (f :: r.1, r.2)
    | false =>
      match add_wasm_dependency_to_project f with
      | .ok p =>
        let r := processConsumers rest
        (p.1 :: r.1, r.2)
      | .error _ => (f :: rest, false)

/-- Mirror of the crate arm of the add command (the spec's on_library_added):
repair every consumer manifest, then wire the crate into the aggregator;
either step failing aborts the operation with all earlier writes kept. -/
def on_library_added (crateName : String) (w : Workspace) : Workspace × Bool :=
  let r := processConsumers w.consumers
  match r.2 with
  | true =>
    match add_crate_build_dependency_to_shared_wasm crateName w.aggregator with
    | .ok p => ({ consumers := r.1, aggregator := p.1 }, true)
    | .error _ => ({ consumers := r.1, aggregator := w.aggregator }, false)
  | false => ({ consumers := r.1, aggregator := w.aggregator }, false)

/-- Decision used by the repair lemmas: whether tasks.build exists and is a
mapping, the only shape the consumer mutator changes. -/
def hasBuildMapping (v : Yaml) : Bool :=
  match (v.get "tasks").bind (fun t => t.get "build") with
  | some (.map _) => true
  | _ => false

/-- Sequence at tasks.taskName.fieldName of a config, empty when any step of
the navigation fails. -/
def navSeq (v : Yaml) (taskName fieldName : String) : List Yaml :=
  ((((v.get "tasks").bind (fun t => t.get taskName)).bind
    (fun b => b.get fieldName)).bind Yaml.asSeq).getD []

/-- Deps list of the build task of a consumer manifest. -/
def buildDeps (v : Yaml) : List Yaml := navSeq v "build" "deps"

/-- Inputs list of the build task of a consumer manifest. -/
def buildInputs (v : Yaml) : List Yaml := navSeq v "build" "inputs"

/-- Deps list of the gather task of the aggregator manifest. -/
def gatherDeps (v : Yaml) : List Yaml := navSeq v "gather" "deps"

/-- Specification-side predicate, stated from the spec's words for
comparison with the source's has_wasm_dependency: true iff deps contains
the aggregator's gather-task reference AND inputs contains the aggregator's
artifact glob. -/
def manifest_declares_library_dependency (f : FileState) : Bool :=
  match f with
  | .yaml v =>
      (buildDeps v).any (fun d => d.asStr = some wasmGather) &&
      (buildInputs v).any (fun i => i.asStr = some wasmInput)
  | _ => false

/-- Concrete manifest whose build task declares the gather dependency in
deps but has no inputs entry at all. -/
def manifestDepsOnly : Yaml :=
  .map [(.str "tasks", .map [(.str "build", .map
    [(.str "deps", .seq [.str wasmGather])])])]

/-- Concrete manifest whose build deps already contain the gather reference
twice. -/
def manifestDupDeps : Yaml :=
  .map [(.str "tasks", .map [(.str "build", .map
    [(.str "deps", .seq [.str wasmGather, .str wasmGather])])])]

/-- Whitespace class of the regex escape used between the name key and its
value in the JSONC rewrite pattern: the regex engine's default is the
Unicode White_Space property, namely U+0009..U+000D, U+0020, U+0085,
U+00A0, U+1680, U+2000..U+200A, U+2028, U+2029, U+202F, U+205F and
U+3000. -/
def isWsChar (c : Char) : Bool :=
  ('\x09' ≤ c && c ≤ '\x0d') || c = ' ' || c = '\x85' || c = '\xa0' ||
  c = '\u1680' || ('\u2000' ≤ c && c ≤ '\u200a') ||
  c = '\u2028' || c = '\u2029' || c = '\u202f' || c = '\u205f' || c = '\u3000'

/-- Maximal-munch consumption of whitespace.  The pattern character
required right after each whitespace run is never itself whitespace, so
maximal munch coincides with the regex engine's behavior. -/
def skipWs : List Char → List Char
  | [] => []
  | c :: cs => if isWsChar c then skipWs cs else c :: cs

/-- Maximal-munch consumption of the quoted value's characters (every
character except the double quote).  The pattern requires a closing quote
next, which the class excludes, so maximal munch coincides with the regex
engine's behavior. -/
def skipValue : List Char → List Char
  | [] => []
  | c :: cs => if c = '"' then c :: cs else skipValue cs

/-- Attempted match, at the head of the character list, of the rewrite
pattern: the literal quoted name key, whitespace, a colon, whitespace, then
a quoted value.  Returns the remainder after the match. -/
def matchNameAt (cs : List Char) : Option (List Char) :=
  match cs with
  | '"' :: 'n' :: 'a' :: 'm' :: 'e' :: '"' :: r0 =>
    match skipWs r0 with
    | ':' :: r1 =>
      match skipWs r1 with
      | '"' :: r2 =>
        match skipValue r2 with
        | '"' :: r3 => some r3
        | _ => none
      | _ => none
    | _ => none
  | _ => none

/-- Leftmost-first match search, as Regex::replace performs it: the prefix
before the first match, the matched span itself (capture group 0), and the
remainder after the match. -/
def firstNameSplit : List Char → Option (List Char × List Char × List Char)
  | [] => none
  | c :: rest =>
    match matchNameAt (c :: rest) with
    | some post =>
        some ([], (c :: rest).take ((c :: rest).length - post.length), post)
    | none => (firstNameSplit rest).map (fun p => (c :: p.1, p.2))

/-- Replacement text handed to Regex::replace before expansion: the quoted
name key, a colon, one space, and the quoted new name, exactly as the
source formats it. -/
def canonicalNameText (newName : List Char) : List Char :=
  '"' :: 'n' :: 'a' :: 'm' :: 'e' :: '"' :: ':' :: ' ' :: '"' :: (newName ++ ['"'])

/-- Characters the regex engine accepts in an unbraced capture-group
reference after a dollar sign: ASCII digits, letters, and underscore. -/
def isCapNameChar (c : Char) : Bool :=
  ('0' ≤ c && c ≤ '9') || ('a' ≤ c && c ≤ 'z') || ('A' ≤ c && c ≤ 'Z') || c = '_'

/-- Length of the longest capture-name prefix. -/
def capNameSpan : List Char → Nat
  | [] => 0
  | c :: cs => if isCapNameChar c then capNameSpan cs + 1 else 0

/-- Index of the first closing brace, when one exists. -/
def braceEnd : List Char → Option Nat
  | [] => none
  | c :: cs => if c = '}' then some 0 else (braceEnd cs).map (· + 1)

/-- Value of a capture-group reference for the rewrite pattern, which has
only group 0 (the whole match): an all-zero digit string parses to index 0
and yields the matched text; every other reference — a nonzero index or a
name, neither of which the pattern defines — yields the empty string. -/
def capRefValue (name matched : List Char) : List Char :=
  if name.all (fun c => c = '0') then matched else []

/-- Expansion that Regex::replace applies to a string replacement: a
doubled dollar is a literal dollar; a dollar followed by a braced,
non-empty, closed reference or by a longest run of capture-name characters
is replaced by that reference's value; a dollar that starts no valid
reference is copied literally and scanning resumes at the next character. -/
def expandDollars (matched : List Char) : List Char → List Char
  | [] => []
  | c :: rest =>
    if c = '$' then
      match rest with
      | [] => ['$']
      | c2 :: rest2 =>
        if c2 = '$' then '$' :: expandDollars matched rest2
        else if c2 = '{' then
          match braceEnd rest2 with
          | some m =>
            if m = 0 then '$' :: expandDollars matched (c2 :: rest2)
            else capRefValue (rest2.take m) matched ++
              expandDollars matched (rest2.drop (m + 1))
          | none => '$' :: expandDollars matched (c2 :: rest2)
        else
          let n := capNameSpan (c2 :: rest2)
          if n = 0 then '$' :: expandDollars matched (c2 :: rest2)
          else capRefValue ((c2 :: rest2).take n) matched ++
            expandDollars matched ((c2 :: rest2).drop n)
    else c :: expandDollars matched rest
termination_by cs => cs.length
decreasing_by
  all_goals (try simp only [List.length_drop, List.length_cons])
  all_goals omega

/-- Mirror of update_wrangler_jsonc's text transformation: replace the
first match of the name pattern with the dollar-expanded replacement text;
leave the content unchanged when there is no match. -/
def update_wrangler_jsonc (content : List Char) (newName : List Char) : List Char :=
  match firstNameSplit content with
  | none => content
  | some (pre, mid, post) => pre ++ expandDollars mid (canonicalNameText newName) ++ post

/-- Parsed top-level TOML table of a deploy manifest: the name entry when
present, and an opaque remainder standing for every other entry. -/
structure TomlDoc : Type where
  name : Option String
  rest : Nat
deriving DecidableEq

/-- A wrangler.toml file on disk. -/
inductive TomlFile : Type where
  | unreadable : TomlFile
  | malformed : TomlFile
  | parsed : TomlDoc → TomlFile
deriving DecidableEq

/-- Parsed JSON document: a top-level object with a name entry and opaque
remainder, or a non-object top-level value which the updater leaves as is. -/
inductive JsonDoc : Type where
  | obj : Option String → Nat → JsonDoc
  | nonObj : Nat → JsonDoc
deriving DecidableEq

/-- A wrangler.json file on disk. -/
inductive JsonFile : Type where
  | unreadable : JsonFile
  | malformed : JsonFile
  | parsed : JsonDoc → JsonFile
deriving DecidableEq

/-- A wrangler.jsonc file on disk: raw text, edited without parsing. -/
inductive JsoncFile : Type where
  | unreadable : JsoncFile
  | text : List Char → JsoncFile
deriving DecidableEq

/-- Deploy-manifest files present in one project directory. -/
structure ProjDir : Type where
  toml : Option TomlFile
  json : Option JsonFile
  jsonc : Option JsoncFile
deriving DecidableEq

/-- Mirror of update_wrangler_toml: read and parse (either failing aborts
before any write), set the top-level name entry, re-serialize. -/
def update_wrangler_toml : TomlFile → String → Option TomlFile
  | .unreadable, _ => none
  | .malformed, _ => none
  | .parsed d, newName => some (.parsed { name := some newName, rest := d.rest })

/-- Mirror of update_wrangler_json: like the TOML updater, except a
non-object top level is rewritten unchanged (as_object_mut yields nothing). -/
def update_wrangler_json : JsonFile → String → Option JsonFile
  | .unreadable, _ => none
  | .malformed, _ => none
  | .parsed (.obj _ r), newName => some (.parsed (.obj (some newName) r))
  | .parsed (.nonObj r), _ => some (.parsed (.nonObj r))

/-- Mirror of update_wrangler_jsonc at the file level: a read failure
aborts; otherwise the text substitution is applied and written back. -/
def update_wrangler_jsonc_file : JsoncFile → String → Option JsoncFile
  | .unreadable, _ => none
  | .text cs, newName => some (.text (update_wrangler_jsonc cs newName.toList))

/-- Mirror of update_wrangler_config: pick the first deploy-manifest file
present, checking wrangler.toml, then wrangler.json, then wrangler.jsonc;
when none exists, warn and succeed without change. -/
def update_wrangler_config (pd : ProjDir) (newName : String) : Option ProjDir :=
  match pd.toml with
  | some tf => (update_wrangler_toml tf newName).map
      (fun tf' => { pd with toml := some tf' })
  | none =>
    match pd.json with
    | some jf => (update_wrangler_json jf newName).map
        (fun jf' => { pd with json := some jf' })
    | none =>
      match pd.jsonc with
      | some cf => (update_wrangler_jsonc_file cf newName).map
          (fun cf' => { pd with jsonc := some cf' })
      | none => some pd

/-- Fixed category search order of find_project: project type tag and
category directory, in source order (sites, apps, workers, crates). -/
def projectTypes : List (String × String) :=
  [("astro", "sites"), ("react", "apps"),
   ("durable-object", "workers"), ("crate", "crates")]

/-- Walk of the category list: the first category whose directory contains
an entry with the given name wins; the result carries the project type, the
category directory, and the joined path. -/
def findProjectIn (dirs : List String) (name : String) :
    List (String × String) → Option (String × String × String)
  | [] => none
  | (ptype, dir) :: rest =>
    if (dir ++ "/" ++ name) ∈ dirs then some (ptype, dir, dir ++ "/" ++ name)
    else findProjectIn dirs name rest

/-- Mirror of find_project: path and project type of the first category
containing the name; none models the ProjectNotFound failure. -/
def find_project (dirs : List String) (name : String) : Option (String × String) :=
  (findProjectIn dirs name projectTypes).map (fun r => (r.2.2, r.1))

/-- Error outcomes of the rename command's bail sites. -/
inductive RenameError : Type where
  | notWorkspace : RenameError
  | projectNotFound : RenameError
  | destinationExists : RenameError
  | identityFailed : RenameError
deriving DecidableEq

/-- Filesystem state seen by the rename command: the workspace marker, the
set of existing directory paths, and the deploy-manifest record of each
project path. -/
structure RenameWorld : Type where
  isWorkspace : Bool
  dirs : List String
  projects : List (String × ProjDir)
deriving DecidableEq

def lookupProj : List (String × ProjDir) → String → Option ProjDir
  | [], _ => none
  | (p, pd) :: rest, q => if p = q then some pd else lookupProj rest q

/-- Deploy-manifest record of a project path; a path without a record has
no wrangler files at all. -/
def getProj (ps : List (String × ProjDir)) (p : String) : ProjDir :=
  (lookupProj ps p).getD ⟨none, none, none⟩

def setProj : List (String × ProjDir) → String → ProjDir → List (String × ProjDir)
  | [], p, pd => [(p, pd)]
  | (q, qd) :: rest, p, pd =>
      if q = p then (p, pd) :: rest else (q, qd) :: setProj rest p pd

/-- Directory rename at the path level: the moved path takes its new name. -/
def renameDir (dirs : List String) (oldPath newPath : String) : List String :=
  dirs.map (fun d => if d = oldPath then newPath else d)

/-- The files under a moved directory move with it. -/
def renameProjKey (ps : List (String × ProjDir)) (oldPath newPath : String) :
    List (String × ProjDir) :=
  ps.map (fun e => if e.1 = oldPath then (newPath, e.2) else e)

/-- Whether the project type carries a deploy manifest (astro, react, or
durable-object). -/
def isWebType (ptype : String) : Bool :=
  ptype = "astro" || ptype = "react" || ptype = "durable-object"

/-- Mirror of RenameCommand::execute: workspace check, project lookup,
destination-exists check, deploy-manifest identity update for web projects,
then the directory rename.  The returned world is the filesystem state when
the function returns; the optional error mirrors the bail sites in order. -/
def execute (w : RenameWorld) (currentName newName : String) :
    RenameWorld × Option RenameError :=
  match w.isWorkspace with
  | false => (w, some .notWorkspace)
  | true =>
    match findProjectIn w.dirs currentName projectTypes with
    | none => (w, some .projectNotFound)
    | some (ptype, dir, projectPath) =>
      if (dir ++ "/" ++ newName) ∈ w.dirs then (w, some .destinationExists)
      else
        match isWebType ptype with
        | true =>
          match update_wrangler_config (getProj w.projects projectPath) newName with
          | none => (w, some .identityFailed)
          | some pd' =>
            ({ isWorkspace := w.isWorkspace,
               dirs := renameDir w.dirs projectPath (dir ++ "/" ++ newName),
               projects := renameProjKey (setProj w.projects projectPath pd')
                 projectPath (dir ++ "/" ++ newName) }, none)
        | false =>
          ({ isWorkspace := w.isWorkspace,
             dirs := renameDir w.dirs projectPath (dir ++ "/" ++ newName),
             projects := renameProjKey w.projects projectPath
               (dir ++ "/" ++ newName) }, none)

/-- Concrete world for the C4 witness: one web project whose wrangler.toml
cannot be read, so the identity update fails. -/
def worldBadToml : RenameWorld :=
  { isWorkspace := true,
    dirs := ["sites/foo"],
    projects := [("sites/foo", ⟨some .unreadable, none, none⟩)] }

/-- Concrete world for the C7 witness: two sibling projects in the same
category directory. -/
def worldTwoSites : RenameWorld :=
  { isWorkspace := true,
    dirs := ["sites/a", "sites/b"],
    projects := [] }

@[simp] theorem Yaml.asStr_str (s : String) : (Yaml.str s).asStr = some s := rfl

@[simp] theorem Yaml.asSeq_seq (xs : List Yaml) : (Yaml.seq xs).asSeq = some xs := rfl

@[simp] theorem Yaml.get_map (m : List (Yaml × Yaml)) (k : String) :
    (Yaml.map m).get k = mapGet m k := rfl

theorem mapGet_nil (k : String) : mapGet [] k = none := rfl

theorem mapGet_cons (k' v' : Yaml) (rest : List (Yaml × Yaml)) (k : String) :
    mapGet ((k', v') :: rest) k =
      if k'.asStr = some k then some v' else mapGet rest k := rfl

theorem mapInsert_nil (k : String) (v : Yaml) :
    mapInsert [] k v = [(Yaml.str k, v)] := rfl

theorem mapInsert_cons (k' v' : Yaml) (rest : List (Yaml × Yaml)) (k : String) (v : Yaml) :
    mapInsert ((k', v') :: rest) k v =
      if k'.asStr = some k then (Yaml.str k, v) :: rest
      else (k', v') :: mapInsert rest k v := rfl

theorem mapGet_mapInsert_self (m : List (Yaml × Yaml)) (k : String) (v : Yaml) :
    mapGet (mapInsert m k v) k = some v := by
  induction m with
  | nil =>
    rw [mapInsert_nil, mapGet_cons, Yaml.asStr_str, if_pos rfl]
  | cons e rest ih =>
    obtain ⟨k', v'⟩ := e
    rw [mapInsert_cons]
    by_cases h : k'.asStr = some k
    · rw [if_pos h, mapGet_cons, Yaml.asStr_str, if_pos rfl]
    · rw [if_neg h, mapGet_cons, if_neg h, ih]

theorem mapGet_mapInsert_ne (m : List (Yaml × Yaml)) (k k₂ : String) (v : Yaml)
    (hne : k ≠ k₂) : mapGet (mapInsert m k v) k₂ = mapGet m k₂ := by
  have hks : ¬ (Yaml.str k).asStr = some k₂ := by
    rw [Yaml.asStr_str]
    intro h
    exact hne (Option.some.inj h)
  induction m with
  | nil =>
    rw [mapInsert_nil, mapGet_cons, if_neg hks]
  | cons e rest ih =>
    obtain ⟨k', v'⟩ := e
    rw [mapInsert_cons]
    by_cases h : k'.asStr = some k
    · have h2 : ¬ k'.asStr = some k₂ := by
        rw [h]
        intro h3
        exact hne (Option.some.inj h3)
      rw [if_pos h, mapGet_cons, if_neg hks, mapGet_cons, if_neg h2]
    · rw [if_neg h, mapGet_cons, mapGet_cons]
      by_cases h2 : k'.asStr = some k₂
      · rw [if_pos h2, if_pos h2]
      · rw [if_neg h2, if_neg h2, ih]

theorem get_setKey_self (y : Yaml) (k : String) (v x : Yaml) (h : y.get k = some x) :
    (y.setKey k v).get k = some v := by
  cases y <;> simp [Yaml.get] at h
  simp [Yaml.setKey, Yaml.get, mapGet_mapInsert_self]

/-- A sequence read through bind-asSeq-getD that satisfies a predicate
somewhere can only come from an actual sequence value at the key. -/
theorem mapGet_of_any (m : List (Yaml × Yaml)) (k : String) (p : Yaml → Bool)
    (h : ((((mapGet m k).bind Yaml.asSeq).getD []).any p) = true) :
    mapGet m k = some (.seq (((mapGet m k).bind Yaml.asSeq).getD [])) := by
  cases hm : mapGet m k with
  | none => rw [hm] at h; simp at h
  | some y =>
    rw [hm] at h
    cases y <;> simp [Yaml.asSeq] at h ⊢

theorem updDeps_deps (bm : List (Yaml × Yaml)) :
    ∃ ds, mapGet (updDeps bm) "deps" = some (.seq ds) ∧
      ds.any (fun d => d.asStr = some wasmGather) = true := by
  unfold updDeps
  by_cases hg : ((seqAt bm "deps").any (fun d => d.asStr = some wasmGather)) = true
  · rw [if_pos hg]
    exact ⟨_, mapGet_of_any bm "deps" _ hg, hg⟩
  · rw [if_neg hg]
    refine ⟨_, mapGet_mapInsert_self bm "deps" _, ?_⟩
    simp

theorem updInputs_get_deps (bm : List (Yaml × Yaml)) :
    mapGet (updInputs bm) "deps" = mapGet bm "deps" := by
  unfold updInputs
  by_cases hi : ((seqAt bm "inputs").any (fun i => i.asStr = some wasmInput)) = true
  · rw [if_pos hi]
  · rw [if_neg hi, mapGet_mapInsert_ne _ _ _ _ (by decide)]

theorem updateBuildMapping_deps (bm : List (Yaml × Yaml)) :
    ∃ ds, mapGet (updateBuildMapping bm) "deps" = some (.seq ds) ∧
      ds.any (fun d => d.asStr = some wasmGather) = true := by
  obtain ⟨ds, h1, h2⟩ := updDeps_deps bm
  exact ⟨ds, by rw [updateBuildMapping, updInputs_get_deps, h1], h2⟩

theorem hasBuildMapping_true_elim (v : Yaml) (h : hasBuildMapping v = true) :
    ∃ tasks bm, v.get "tasks" = some tasks ∧ tasks.get "build" = some (.map bm) := by
  cases hv : v.get "tasks" with
  | none => simp [hasBuildMapping, hv] at h
  | some tasks =>
    cases hb : tasks.get "build" with
    | none => simp [hasBuildMapping, hv, hb] at h
    | some bt =>
      cases bt with
      | map gm => exact ⟨tasks, gm, rfl, hb⟩
      | null => simp [hasBuildMapping, hv, hb] at h
      | bool b => simp [hasBuildMapping, hv, hb] at h
      | num n => simp [hasBuildMapping, hv, hb] at h
      | str s => simp [hasBuildMapping, hv, hb] at h
      | seq xs => simp [hasBuildMapping, hv, hb] at h

theorem addWasmToConfig_of_buildMap (v tasks : Yaml) (bm : List (Yaml × Yaml))
    (hv : v.get "tasks" = some tasks) (hb : tasks.get "build" = some (.map bm)) :
    addWasmToConfig v =
      v.setKey "tasks" (tasks.setKey "build" (.map (updateBuildMapping bm))) := by
  simp only [addWasmToConfig, hv, hb]

theorem addWasmToConfig_no_buildMap (v : Yaml) (h : hasBuildMapping v = false) :
    addWasmToConfig v = v := by
  cases hv : v.get "tasks" with
  | none => simp only [addWasmToConfig, hv]
  | some tasks =>
    cases hb : tasks.get "build" with
    | none => simp only [addWasmToConfig, hv, hb]
    | some bt =>
      cases bt with
      | map gm => simp [hasBuildMapping, hv, hb] at h
      | null => simp only [addWasmToConfig, hv, hb]
      | bool b => simp only [addWasmToConfig, hv, hb]
      | num n => simp only [addWasmToConfig, hv, hb]
      | str s => simp only [addWasmToConfig, hv, hb]
      | seq xs => simp only [addWasmToConfig, hv, hb]

theorem configHasWasmDep_addWasm (v : Yaml) (h : hasBuildMapping v = true) :
    configHasWasmDep (addWasmToConfig v) = true := by
  obtain ⟨tasks, bm, hv, hb⟩ := hasBuildMapping_true_elim v h
  obtain ⟨ds, hds, hany⟩ := updateBuildMapping_deps bm
  rw [addWasmToConfig_of_buildMap v tasks bm hv hb]
  have h1 := get_setKey_self v "tasks" (tasks.setKey "build" (.map (updateBuildMapping bm)))
    tasks hv
  have h2 := get_setKey_self tasks "build" (.map (updateBuildMapping bm)) (.map bm) hb
  simp [configHasWasmDep, h1, h2, hds, hany]

theorem add_wasm_step_stable (f : FileState) (p : FileState × Bool)
    (h : add_wasm_dependency_to_project f = .ok p) :
    has_wasm_dependency p.1 = true ∨ add_wasm_dependency_to_project p.1 = .ok p := by
  cases f with
  | absent =>
    simp [add_wasm_dependency_to_project] at h
    right
    rw [← h]
    rfl
  | unreadable => simp [add_wasm_dependency_to_project] at h
  | malformed => simp [add_wasm_dependency_to_project] at h
  | yaml v =>
    simp [add_wasm_dependency_to_project] at h
    cases hbm : hasBuildMapping v with
    | true =>
      left
      rw [← h]
      simp [has_wasm_dependency]
      exact configHasWasmDep_addWasm v hbm
    | false =>
      right
      rw [← h]
      simp [add_wasm_dependency_to_project, addWasmToConfig_no_buildMap v hbm]

theorem processConsumers_stable (cs : List FileState) :
    processConsumers (processConsumers cs).1 = processConsumers cs := by
  induction cs with
  | nil => rfl
  | cons f rest ih =>
    cases hw : has_wasm_dependency f with
    | true =>
      simp only [processConsumers, hw]
      simp only [processConsumers, hw, ih]
    | false =>
      cases ha : add_wasm_dependency_to_project f with
      | error e =>
        simp only [processConsumers, hw, ha]
      | ok p =>
        simp only [processConsumers, hw, ha]
        rcases add_wasm_step_stable f p ha with hs | hs
        · simp only [processConsumers, hs, ih]
        · cases hw2 : has_wasm_dependency p.1 with
          | true => simp only [processConsumers, hw2, ih]
          | false => simp only [processConsumers, hw2, hs, ih]

theorem addCrateToGather_of_gatherMap (L : String) (v tasks : Yaml)
    (gm : List (Yaml × Yaml)) (hv : v.get "tasks" = some tasks)
    (hb : tasks.get "gather" = some (.map gm))
    (hany : ((((mapGet gm "deps").bind Yaml.asSeq).getD []).any
      (fun d => d.asStr = some (L ++ ":build"))) = false) :
    addCrateToGather L v =
      v.setKey "tasks" (tasks.setKey "gather"
        (.map (mapInsert gm "deps"
          (.seq ((((mapGet gm "deps").bind Yaml.asSeq).getD []) ++
            [.str (L ++ ":build")]))))) := by
  simp only [addCrateToGather, hv, hb, hany]
  simp

theorem addCrateToGather_idem (L : String) (v : Yaml) :
    addCrateToGather L (addCrateToGather L v) = addCrateToGather L v := by
  cases hv : v.get "tasks" with
  | none =>
    have h0 : addCrateToGather L v = v := by simp only [addCrateToGather, hv]
    rw [h0, h0]
  | some tasks =>
    cases hb : tasks.get "gather" with
    | none =>
      have h0 : addCrateToGather L v = v := by simp only [addCrateToGather, hv, hb]
      rw [h0, h0]
    | some gt =>
      cases gt with
      | map gm =>
        cases hany : ((((mapGet gm "deps").bind Yaml.asSeq).getD []).any
            (fun d => d.asStr = some (L ++ ":build"))) with
        | true =>
          have h0 : addCrateToGather L v = v := by
            simp only [addCrateToGather, hv, hb, hany]
            simp
          rw [h0, h0]
        | false =>
          rw [addCrateToGather_of_gatherMap L v tasks gm hv hb hany]
          have hv' := get_setKey_self v "tasks"
            (tasks.setKey "gather" (.map (mapInsert gm "deps"
              (.seq ((((mapGet gm "deps").bind Yaml.asSeq).getD []) ++
                [.str (L ++ ":build")]))))) tasks hv
          have hb' := get_setKey_self tasks "gather"
            (.map (mapInsert gm "deps"
              (.seq ((((mapGet gm "deps").bind Yaml.asSeq).getD []) ++
                [.str (L ++ ":build")])))) (.map gm) hb
          have hmg := mapGet_mapInsert_self gm "deps"
            (.seq ((((mapGet gm "deps").bind Yaml.asSeq).getD []) ++
              [.str (L ++ ":build")]))
          simp only [addCrateToGather, hv', hb', hmg]
          simp
      | null =>
        have h0 : addCrateToGather L v = v := by simp only [addCrateToGather, hv, hb]
        rw [h0, h0]
      | bool b =>
        have h0 : addCrateToGather L v = v := by simp only [addCrateToGather, hv, hb]
        rw [h0, h0]
      | num n =>
        have h0 : addCrateToGather L v = v := by simp only [addCrateToGather, hv, hb]
        rw [h0, h0]
      | str s =>
        have h0 : addCrateToGather L v = v := by simp only [addCrateToGather, hv, hb]
        rw [h0, h0]
      | seq xs =>
        have h0 : addCrateToGather L v = v := by simp only [addCrateToGather, hv, hb]
        rw [h0, h0]

theorem add_crate_step_stable (L : String) (f : FileState) (p : FileState × Bool)
    (h : add_crate_build_dependency_to_shared_wasm L f = .ok p) :
    add_crate_build_dependency_to_shared_wasm L p.1 = .ok p := by
  cases f with
  | absent =>
    simp [add_crate_build_dependency_to_shared_wasm] at h
    rw [← h]
    rfl
  | unreadable => simp [add_crate_build_dependency_to_shared_wasm] at h
  | malformed => simp [add_crate_build_dependency_to_shared_wasm] at h
  | yaml v =>
    simp [add_crate_build_dependency_to_shared_wasm] at h
    rw [← h]
    simp [add_crate_build_dependency_to_shared_wasm, addCrateToGather_idem]

/-- C2: running the library-added wiring operation twice in a row leaves the
on-disk state (every consumer build manifest and the aggregator manifest)
exactly as it was after the first run, for every workspace state and every
library name, including runs that abort on a read or parse error. -/
theorem on_library_added_idempotent (L : String) (w : Workspace) :
    (on_library_added L (on_library_added L w).1).1 = (on_library_added L w).1 := by
  unfold on_library_added
  cases hr : (processConsumers w.consumers).2 with
  | true =>
    cases ha : add_crate_build_dependency_to_shared_wasm L w.aggregator with
    | ok p =>
      simp only [hr, ha, processConsumers_stable,
        add_crate_step_stable L w.aggregator p ha]
    | error e =>
      simp only [hr, ha, processConsumers_stable]
  | false =>
    simp only [hr, processConsumers_stable]

theorem nodup_append_marker (ds : List Yaml) (s : String) (h : ds.Nodup)
    (hany : ds.any (fun d => d.asStr = some s) = false) :
    (ds ++ [Yaml.str s]).Nodup := by
  have hmem : Yaml.str s ∉ ds := by
    intro hm
    exact (List.any_eq_false.mp hany (Yaml.str s) hm) (by simp)
  rw [List.nodup_append]
  refine ⟨h, List.nodup_singleton _, ?_⟩
  simp [List.disjoint_singleton, hmem]

theorem seqAt_mapInsert_self (bm : List (Yaml × Yaml)) (k : String) (xs : List Yaml) :
    seqAt (mapInsert bm k (.seq xs)) k = xs := by
  simp [seqAt, mapGet_mapInsert_self]

theorem seqAt_mapInsert_ne (bm : List (Yaml × Yaml)) (k k₂ : String) (v : Yaml)
    (hne : k ≠ k₂) : seqAt (mapInsert bm k v) k₂ = seqAt bm k₂ := by
  simp [seqAt, mapGet_mapInsert_ne _ _ _ _ hne]

theorem updDeps_deps_nodup (bm : List (Yaml × Yaml)) (h : (seqAt bm "deps").Nodup) :
    (seqAt (updDeps bm) "deps").Nodup := by
  unfold updDeps
  by_cases hg : ((seqAt bm "deps").any (fun d => d.asStr = some wasmGather)) = true
  · rw [if_pos hg]
    exact h
  · rw [if_neg hg, seqAt_mapInsert_self]
    exact nodup_append_marker _ _ h (Bool.eq_false_iff.mpr hg)

theorem updDeps_inputs_eq (bm : List (Yaml × Yaml)) :
    seqAt (updDeps bm) "inputs" = seqAt bm "inputs" := by
  unfold updDeps
  by_cases hg : ((seqAt bm "deps").any (fun d => d.asStr = some wasmGather)) = true
  · rw [if_pos hg]
  · rw [if_neg hg, seqAt_mapInsert_ne _ _ _ _ (by decide)]

theorem updInputs_inputs_nodup (bm : List (Yaml × Yaml))
    (h : (seqAt bm "inputs").Nodup) : (seqAt (updInputs bm) "inputs").Nodup := by
  unfold updInputs
  by_cases hg : ((seqAt bm "inputs").any (fun i => i.asStr = some wasmInput)) = true
  · rw [if_pos hg]
    exact h
  · rw [if_neg hg, seqAt_mapInsert_self]
    exact nodup_append_marker _ _ h (Bool.eq_false_iff.mpr hg)

theorem updInputs_deps_eq (bm : List (Yaml × Yaml)) :
    seqAt (updInputs bm) "deps" = seqAt bm "deps" := by
  unfold updInputs
  by_cases hg : ((seqAt bm "inputs").any (fun i => i.asStr = some wasmInput)) = true
  · rw [if_pos hg]
  · rw [if_neg hg, seqAt_mapInsert_ne _ _ _ _ (by decide)]

theorem navSeq_eq (v tasks : Yaml) (bm : List (Yaml × Yaml)) (tn k : String)
    (hv : v.get "tasks" = some tasks) (hb : tasks.get tn = some (.map bm)) :
    navSeq v tn k = seqAt bm k := by
  unfold navSeq
  rw [hv, Option.some_bind, hb, Option.some_bind, Yaml.get_map]
  rfl

/-- C1 counterexample: a manifest whose build deps contain the gather-task
reference but whose build task has no inputs entry is reported by the source
as declaring the dependency, while the spec's both-conditions predicate says
it does not; so the claimed equivalence fails at this manifest. -/
theorem declares_dependency_cex :
    has_wasm_dependency (.yaml manifestDepsOnly) = true ∧
    manifest_declares_library_dependency (.yaml manifestDepsOnly) = false := by
  constructor
  · rfl
  · rfl

/-- C1 amended: the source's check is true iff the manifest parses and its
tasks.build.deps is a sequence containing an entry whose string value is the
gather-task reference; the inputs list is never consulted. -/
theorem has_wasm_dependency_iff_deps (f : FileState) :
    has_wasm_dependency f = true ↔
      ∃ v ds, f = FileState.yaml v ∧
        (((v.get "tasks").bind (fun t => t.get "build")).bind
          (fun b => b.get "deps")).bind Yaml.asSeq = some ds ∧
        ∃ d ∈ ds, d.asStr = some wasmGather := by
  cases f with
  | absent => simp [has_wasm_dependency]
  | unreadable => simp [has_wasm_dependency]
  | malformed => simp [has_wasm_dependency]
  | yaml v =>
    cases hv : v.get "tasks" with
    | none => simp [has_wasm_dependency, configHasWasmDep, hv]
    | some tasks =>
      cases hb : tasks.get "build" with
      | none => simp [has_wasm_dependency, configHasWasmDep, hv, hb]
      | some bt =>
        cases hd : bt.get "deps" with
        | none => simp [has_wasm_dependency, configHasWasmDep, hv, hb, hd]
        | some dv =>
          cases dv <;>
            simp [has_wasm_dependency, configHasWasmDep, hv, hb, hd, Yaml.asSeq]

/-- C3 counterexample: a manifest whose build deps already contain the
gather reference twice passes through the consumer mutation unchanged, so
the resulting deps list still contains a duplicate entry. -/
theorem wiring_duplicates_cex :
    buildDeps (addWasmToConfig manifestDupDeps) = [.str wasmGather, .str wasmGather] ∧
    ¬ (buildDeps (addWasmToConfig manifestDupDeps)).Nodup := by
  have he : buildDeps (addWasmToConfig manifestDupDeps) =
      [.str wasmGather, .str wasmGather] := rfl
  refine ⟨he, ?_⟩
  rw [he]
  intro hn
  rw [List.nodup_cons] at hn
  exact hn.1 (List.mem_singleton.mpr rfl)

/-- C3 amended: the wiring mutations never introduce a duplicate — when a
manifest's deps and inputs lists are duplicate-free before the mutation they
remain duplicate-free after it, for both the consumer mutation and the
aggregator mutation; pre-existing duplicates are preserved, not removed. -/
theorem wiring_preserves_nodup (v w : Yaml) (L : String)
    (h1 : (buildDeps v).Nodup) (h2 : (buildInputs v).Nodup)
    (h3 : (gatherDeps w).Nodup) :
    (buildDeps (addWasmToConfig v)).Nodup ∧
    (buildInputs (addWasmToConfig v)).Nodup ∧
    (gatherDeps (addCrateToGather L w)).Nodup := by
  refine ⟨?_, ?_, ?_⟩
  · cases hbm : hasBuildMapping v with
    | false => rw [addWasmToConfig_no_buildMap v hbm]; exact h1
    | true =>
      obtain ⟨tasks, bm, hv, hb⟩ := hasBuildMapping_true_elim v hbm
      rw [addWasmToConfig_of_buildMap v tasks bm hv hb]
      have hv' := get_setKey_self v "tasks"
        (tasks.setKey "build" (.map (updateBuildMapping bm))) tasks hv
      have hb' := get_setKey_self tasks "build"
        (.map (updateBuildMapping bm)) (.map bm) hb
      rw [buildDeps, navSeq_eq _ _ _ _ _ hv' hb']
      rw [buildDeps, navSeq_eq v tasks bm "build" "deps" hv hb] at h1
      rw [updateBuildMapping, updInputs_deps_eq]
      exact updDeps_deps_nodup bm h1
  · cases hbm : hasBuildMapping v with
    | false => rw [addWasmToConfig_no_buildMap v hbm]; exact h2
    | true =>
      obtain ⟨tasks, bm, hv, hb⟩ := hasBuildMapping_true_elim v hbm
      rw [addWasmToConfig_of_buildMap v tasks bm hv hb]
      have hv' := get_setKey_self v "tasks"
        (tasks.setKey "build" (.map (updateBuildMapping bm))) tasks hv
      have hb' := get_setKey_self tasks "build"
        (.map (updateBuildMapping bm)) (.map bm) hb
      rw [buildInputs, navSeq_eq _ _ _ _ _ hv' hb']
      rw [buildInputs, navSeq_eq v tasks bm "build" "inputs" hv hb] at h2
      rw [updateBuildMapping]
      have h2' : (seqAt (updDeps bm) "inputs").Nodup := by
        rw [updDeps_inputs_eq]
        exact h2
      exact updInputs_inputs_nodup (updDeps bm) h2'
  · cases hv : w.get "tasks" with
    | none =>
      have h0 : addCrateToGather L w = w := by simp only [addCrateToGather, hv]
      rw [h0]
      exact h3
    | some tasks =>
      cases hb : tasks.get "gather" with
      | none =>
        have h0 : addCrateToGather L w = w := by simp only [addCrateToGather, hv, hb]
        rw [h0]
        exact h3
      | some gt =>
        cases gt with
        | map gm =>
          cases hany : ((((mapGet gm "deps").bind Yaml.asSeq).getD []).any
              (fun d => d.asStr = some (L ++ ":build"))) with
          | true =>
            have h0 : addCrateToGather L w = w := by
              simp only [addCrateToGather, hv, hb, hany]
              simp
            rw [h0]
            exact h3
          | false =>
            rw [addCrateToGather_of_gatherMap L w tasks gm hv hb hany]
            have hv' := get_setKey_self w "tasks"
              (tasks.setKey "gather" (.map (mapInsert gm "deps"
                (.seq ((((mapGet gm "deps").bind Yaml.asSeq).getD []) ++
                  [.str (L ++ ":build")]))))) tasks hv
            have hb' := get_setKey_self tasks "gather"
              (.map (mapInsert gm "deps"
                (.seq ((((mapGet gm "deps").bind Yaml.asSeq).getD []) ++
                  [.str (L ++ ":build")])))) (.map gm) hb
            rw [gatherDeps, navSeq_eq _ _ _ _ _ hv' hb', seqAt_mapInsert_self]
            rw [gatherDeps, navSeq_eq w tasks gm "gather" "deps" hv hb] at h3
            exact nodup_append_marker _ _ h3 hany
        | null =>
          have h0 : addCrateToGather L w = w := by simp only [addCrateToGather, hv, hb]
          rw [h0]
          exact h3
        | bool b =>
          have h0 : addCrateToGather L w = w := by simp only [addCrateToGather, hv, hb]
          rw [h0]
          exact h3
        | num n =>
          have h0 : addCrateToGather L w = w := by simp only [addCrateToGather, hv, hb]
          rw [h0]
          exact h3
        | str s =>
          have h0 : addCrateToGather L w = w := by simp only [addCrateToGather, hv, hb]
          rw [h0]
          exact h3
        | seq xs =>
          have h0 : addCrateToGather L w = w := by simp only [addCrateToGather, hv, hb]
          rw [h0]
          exact h3

/-- C3 amended-claim witness at a concrete manifest pair: empty deps and
inputs lists are duplicate-free and stay duplicate-free after both
mutations. -/
theorem wiring_preserves_nodup_witness :
    (buildDeps (.map [])).Nodup ∧ (buildInputs (.map [])).Nodup ∧
    (gatherDeps (.map [])).Nodup ∧
    ((buildDeps (addWasmToConfig (.map []))).Nodup ∧
     (buildInputs (addWasmToConfig (.map []))).Nodup ∧
     (gatherDeps (addCrateToGather "math" (.map []))).Nodup) :=
  ⟨List.nodup_nil, List.nodup_nil, List.nodup_nil,
    wiring_preserves_nodup (.map []) (.map []) "math"
      List.nodup_nil List.nodup_nil List.nodup_nil⟩

/-- C9: a manifest that parses but has no tasks.build mapping (missing
tasks, missing build, or a build entry that is not a mapping) is reported
as success with no deps or inputs entry added — the config value is
unchanged — yet the file is still written back (flag true), re-serialized
from the parsed value. -/
theorem add_wasm_no_build_rewrites (v : Yaml) (h : hasBuildMapping v = false) :
    add_wasm_dependency_to_project (.yaml v) = .ok (.yaml v, true) := by
  simp [add_wasm_dependency_to_project, addWasmToConfig_no_buildMap v h]

/-- C9 witness: a parsed manifest with a tasks mapping but no build task. -/
theorem add_wasm_no_build_rewrites_witness :
    hasBuildMapping (.map [(.str "tasks", .map [])]) = false ∧
    add_wasm_dependency_to_project (.yaml (.map [(.str "tasks", .map [])])) =
      .ok (.yaml (.map [(.str "tasks", .map [])]), true) :=
  ⟨rfl, add_wasm_no_build_rewrites (.map [(.str "tasks", .map [])]) rfl⟩

/-- C10: a project whose build manifest is missing, unreadable, or fails to
parse as YAML is classified by has_wasm_dependency as not declaring the
dependency (false, never an error), and the repair loop therefore takes the
repair branch for it — shown for the malformed case, where the attempted
repair then surfaces the parse error. -/
theorem has_wasm_dependency_failure_paths :
    has_wasm_dependency .absent = false ∧
    has_wasm_dependency .unreadable = false ∧
    has_wasm_dependency .malformed = false ∧
    processConsumers [FileState.malformed] = ([FileState.malformed], false) :=
  ⟨rfl, rfl, rfl, rfl⟩

theorem matchNameAt_nil : matchNameAt [] = none := rfl

/-- C8: find_project checks the category directories in the fixed order
sites (astro, the StaticSite category), apps (react, WebApp), workers
(durable-object, EdgeWorker), crates (crate, NativeLibrary); it returns the
path and type of the first category containing an entry with the name, and
yields the ProjectNotFound failure (none) exactly when no category
contains one. -/
theorem find_project_spec (dirs : List String) (name : String) :
    find_project dirs name =
      (if ("sites" ++ "/" ++ name) ∈ dirs then some ("sites" ++ "/" ++ name, "astro")
       else if ("apps" ++ "/" ++ name) ∈ dirs then some ("apps" ++ "/" ++ name, "react")
       else if ("workers" ++ "/" ++ name) ∈ dirs then
         some ("workers" ++ "/" ++ name, "durable-object")
       else if ("crates" ++ "/" ++ name) ∈ dirs then
         some ("crates" ++ "/" ++ name, "crate")
       else none) ∧
    (find_project dirs name = none ↔
      ("sites" ++ "/" ++ name) ∉ dirs ∧ ("apps" ++ "/" ++ name) ∉ dirs ∧
      ("workers" ++ "/" ++ name) ∉ dirs ∧ ("crates" ++ "/" ++ name) ∉ dirs) := by
  have hmain : find_project dirs name =
      (if ("sites" ++ "/" ++ name) ∈ dirs then some ("sites" ++ "/" ++ name, "astro")
       else if ("apps" ++ "/" ++ name) ∈ dirs then some ("apps" ++ "/" ++ name, "react")
       else if ("workers" ++ "/" ++ name) ∈ dirs then
         some ("workers" ++ "/" ++ name, "durable-object")
       else if ("crates" ++ "/" ++ name) ∈ dirs then
         some ("crates" ++ "/" ++ name, "crate")
       else none) := by
    simp only [find_project, projectTypes, findProjectIn]
    split_ifs <;> rfl
  refine ⟨hmain, ?_⟩
  rw [hmain]
  split_ifs with h1 h2 h3 h4 <;> simp_all

/-- C4: whenever the rename command fails at the deploy-manifest identity
update, the directory move has not been attempted: the directory list is
exactly as before, so the project directory is still at its original path
and name. -/
theorem rename_identity_failure_keeps_dirs (w : RenameWorld) (cur newName : String)
    (h : (execute w cur newName).2 = some .identityFailed) :
    (execute w cur newName).1.dirs = w.dirs := by
  cases hw : w.isWorkspace with
  | false => simp [execute, hw]
  | true =>
    cases hf : findProjectIn w.dirs cur projectTypes with
    | none => simp [execute, hw, hf]
    | some r =>
      obtain ⟨ptype, dir, path⟩ := r
      by_cases hmem : (dir ++ "/" ++ newName) ∈ w.dirs
      · simp [execute, hw, hf, hmem]
      · cases hweb : isWebType ptype with
        | true =>
          cases hu : update_wrangler_config (getProj w.projects path) newName with
          | none => simp [execute, hw, hf, hmem, hweb, hu]
          | some pd' =>
            exfalso
            simp [execute, hw, hf, hmem, hweb, hu] at h
        | false =>
          exfalso
          simp [execute, hw, hf, hmem, hweb] at h

/-- C4 witness: a web project whose wrangler.toml is unreadable makes the
identity update fail, and the directory list is untouched. -/
theorem rename_identity_failure_keeps_dirs_witness :
    (execute worldBadToml "foo" "bar").2 = some .identityFailed ∧
    (execute worldBadToml "foo" "bar").1.dirs = worldBadToml.dirs :=
  ⟨by decide, rename_identity_failure_keeps_dirs worldBadToml "foo" "bar" (by decide)⟩

/-- C7: a rename whose destination path already exists in the same category
directory fails with DestinationAlreadyExists, and the whole world —
directories and deploy manifests — is returned exactly as it was: no
filesystem mutation begins. -/
theorem rename_destination_exists_no_mutation (w : RenameWorld)
    (cur newName ptype dir path : String)
    (hw : w.isWorkspace = true)
    (hf : findProjectIn w.dirs cur projectTypes = some (ptype, dir, path))
    (hmem : (dir ++ "/" ++ newName) ∈ w.dirs) :
    execute w cur newName = (w, some .destinationExists) := by
  simp [execute, hw, hf, hmem]

/-- C7 witness: renaming project a to b while sites/b exists. -/
theorem rename_destination_exists_no_mutation_witness :
    worldTwoSites.isWorkspace = true ∧
    findProjectIn worldTwoSites.dirs "a" projectTypes =
      some ("astro", "sites", "sites/a") ∧
    ("sites" ++ "/" ++ "b") ∈ worldTwoSites.dirs ∧
    execute worldTwoSites "a" "b" = (worldTwoSites, some .destinationExists) :=
  ⟨rfl, by decide, by decide,
    rename_destination_exists_no_mutation worldTwoSites "a" "b" "astro" "sites"
      "sites/a" rfl (by decide) (by decide)⟩

end Moonflare
